import Mathlib

/-
Shallow embedding of the annotationscale repository (Go): the rollout-plan
data model and annotation codec from src/model.go, and the reconcile engine
from src/reconciler.go (the variant whose line numbers the claims cite).

Machine integers (Go int / int32) are modelled as Int; times (time.Time)
as Int Unix seconds; the nullable *int32 Spec.Replicas as Option Int;
the annotation map[string]string as an association list (a nil Go map is
Option.none).  A Go panic (nil-pointer dereference, index out of range)
is modelled by the engine returning Option.none.
-/

namespace AnnotationScale

/-- src/model.go: `type Step struct Replicas int32; Pause bool`. -/
structure Step where
  replicas : Int
  pause : Bool
deriving Repr, DecidableEq

/-- A Go map[string]string, as an association list (first binding wins). -/
abbrev Ann := List (String × String)

/-- Map lookup: `v, ok := m[k]`. -/
def lookupAnn (m : Ann) (k : String) : Option String :=
  match m with
  | [] => none
  | (k', v) :: rest => if k' = k then some v else lookupAnn rest k

/-- Map update `m[k] = v`: overwrite in place, or append when absent. -/
def setAnn (m : Ann) (k v : String) : Ann :=
  match m with
  | [] => [(k, v)]
  | (k', v') :: rest => if k' = k then (k, v) :: rest else (k', v') :: setAnn rest k v

/-- Lookup on a possibly-nil Go map (reads on a nil map always miss). -/
def lookupOpt (m : Option Ann) (k : String) : Option String :=
  match m with
  | none => none
  | some m => lookupAnn m k

/-- src/model.go: `type ScaleAnnotation struct`.  (Name shortened to satisfy
the identifier rules of this development; fields keep the source names.) -/
structure ScaleAnnot where
  Steps : List Step
  CurrentStepIndex : Int
  CurrentStepState : String
  Message : String
  MaxWaitAvailableSecond : Int
  MaxUnavailableReplicas : Int
  LastUpdateTime : Int
deriving Repr, DecidableEq

/-- src/model.go: `StepStateUpgrade StepState = "StepUpgrade"`. -/
def StepStateUpgrade : String := "StepUpgrade"

/-- src/model.go: `StepStatePaused StepState = "StepPaused"`. -/
def StepStatePaused : String := "StepPaused"

/-- src/model.go: `StepStateReady StepState = "StepReady"`. -/
def StepStateReady : String := "StepReady"

/-- src/model.go: `StepStateCompleted StepState = "Completed"`. -/
def StepStateCompleted : String := "Completed"

/-- Modelled from the spec: the constant `StepStateTimeout` is used by
src/reconciler.go but its declaration is not under src/ (src/model.go is an
older revision declaring `StepStateError` instead); the spec fixes the
persisted enumeration name of the terminal failure state as `Timeout`. -/
def StepStateTimeout : String := "Timeout"

/-- src/model.go `StepDeadline`: `lastUpdateTime + maxWaitAvailableSecond`
(seconds). -/
def StepDeadline (sa : ScaleAnnot) : Int :=
  sa.LastUpdateTime + sa.MaxWaitAvailableSecond

/- ---------------------------------------------------------------------
JSON codec for []Step (encoding/json as used by src/model.go).
Marshal: struct tags `replicas,omitempty` / `pause,omitempty`, so a zero
replicas field and a false pause field are omitted.  (A nil Go slice
marshals to "null"; a Lean List cannot carry nil-ness, so the empty list
marshals to "[]"; no theorem below depends on the nil-slice case.)
--------------------------------------------------------------------- -/

/-- json.Marshal of one Step with the source's omitempty tags. -/
def stepToJSON (s : Step) : String :=
  if s.replicas = 0 then
    if s.pause then "\x7b\"pause\":true\x7d" else "\x7b\x7d"
  else
    if s.pause then "\x7b\"replicas\":" ++ toString s.replicas ++ ",\"pause\":true\x7d"
    else "\x7b\"replicas\":" ++ toString s.replicas ++ "\x7d"

/-- json.Marshal of a []Step. -/
def stepsToJSON (l : List Step) : String :=
  "[" ++ String.intercalate "," (l.map stepToJSON) ++ "]"

def jIsWS (c : Char) : Bool :=
  c = ' ' ∨ c = '\t' ∨ c = '\n' ∨ c = '\r'

def jSkipWS : List Char → List Char
  | [] => []
  | c :: cs => if jIsWS c then jSkipWS cs else c :: cs

def jDigits : List Char → List Char × List Char
  | [] => ([], [])
  | c :: cs =>
    if c.isDigit then
      let p := jDigits cs
      (c :: p.1, p.2)
    else ([], c :: cs)

def jDigitsVal (ds : List Char) : Nat :=
  ds.foldl (fun acc c => acc * 10 + (c.toNat - 48)) 0

/-- Match a literal character sequence, returning the remainder. -/
def jLit : List Char → List Char → Option (List Char)
  | [], cs => some cs
  | _ :: _, [] => none
  | p :: ps, c :: cs => if c = p then jLit ps cs else none

def jHexVal (c : Char) : Option Nat :=
  if '0' ≤ c ∧ c ≤ '9' then some (c.toNat - 48)
  else if 'a' ≤ c ∧ c ≤ 'f' then some (c.toNat - 87)
  else if 'A' ≤ c ∧ c ≤ 'F' then some (c.toNat - 55)
  else none

def jToLower (c : Char) : Char :=
  if 'A' ≤ c ∧ c ≤ 'Z' then Char.ofNat (c.toNat + 32) else c

/-- ASCII-case-insensitive name comparison, as encoding/json uses for its
fall-back field matching (strings.EqualFold restricted to the ASCII
folding that can reach the field names `replicas` and `pause`). -/
def jFoldEq (a b : List Char) : Bool :=
  a.map jToLower == b.map jToLower

/-- The body of a JSON string after the opening quote: plain characters,
the simple escapes, and \uXXXX (an unpaired surrogate becomes U+FFFD, as
in Go's unquoter); an unescaped control character is an error. -/
def jStringBody (fuel : Nat) (cs : List Char) (acc : List Char) :
    Option (List Char × List Char) :=
  match fuel with
  | 0 => none
  | fuel + 1 =>
    match cs with
    | [] => none
    | c :: rest =>
      if c = '"' then some (acc.reverse, rest)
      else if c = '\\' then
        match rest with
        | [] => none
        | e :: rest2 =>
          if e = '"' then jStringBody fuel rest2 ('"' :: acc)
          else if e = '\\' then jStringBody fuel rest2 ('\\' :: acc)
          else if e = '/' then jStringBody fuel rest2 ('/' :: acc)
          else if e = 'b' then jStringBody fuel rest2 ('\x08' :: acc)
          else if e = 'f' then jStringBody fuel rest2 ('\x0c' :: acc)
          else if e = 'n' then jStringBody fuel rest2 ('\n' :: acc)
          else if e = 'r' then jStringBody fuel rest2 ('\x0d' :: acc)
          else if e = 't' then jStringBody fuel rest2 ('\t' :: acc)
          else if e = 'u' then
            match rest2 with
            | h1 :: h2 :: h3 :: h4 :: rest3 =>
              (match jHexVal h1, jHexVal h2, jHexVal h3, jHexVal h4 with
               | some a, some b, some c2, some d2 =>
                 let code := ((a * 16 + b) * 16 + c2) * 16 + d2
                 let ch := if 55296 ≤ code ∧ code ≤ 57343 then Char.ofNat 65533
                           else Char.ofNat code
                 jStringBody fuel rest3 (ch :: acc)
               | _, _, _, _ => none)
            | _ => none
          else none
      else if c.toNat < 32 then none
      else jStringBody fuel rest (c :: acc)

/-- A JSON string literal, returning its unescaped content and the
remainder. -/
def jString (fuel : Nat) (cs : List Char) : Option (List Char × List Char) :=
  match cs with
  | '"' :: rest => jStringBody fuel rest []
  | _ => none

/-- A JSON number literal per the JSON grammar (no leading zeros;
optional fraction and exponent).  Returns whether the literal is a plain
integer (no fraction/exponent - the only form Go's decoder accepts into
an integer field), its integer value when so, and the remainder. -/
def jNumberLit (cs : List Char) : Option (Bool × Int × List Char) :=
  let signed : Bool × List Char :=
    match cs with
    | '-' :: r => (true, r)
    | _ => (false, cs)
  match signed.2 with
  | [] => none
  | c :: r =>
    let ipart : Option (Nat × List Char) :=
      if c = '0' then
        match r with
        | d :: _ => if d.isDigit then none else some (0, r)
        | [] => some (0, r)
      else if c.isDigit then
        let p := jDigits signed.2
        some (jDigitsVal p.1, p.2)
      else none
    match ipart with
    | none => none
    | some (n, r2) =>
      let frac : Option (Bool × List Char) :=
        match r2 with
        | '.' :: r3 =>
          let p := jDigits r3
          if p.1.isEmpty then none else some (false, p.2)
        | _ => some (true, r2)
      match frac with
      | none => none
      | some (int1, r4) =>
        let expo : Option (Bool × List Char) :=
          match r4 with
          | 'e' :: r5 =>
            (let r6 := match r5 with | '+' :: r6 => r6 | '-' :: r6 => r6 | _ => r5
             let p := jDigits r6
             if p.1.isEmpty then none else some (false, p.2))
          | 'E' :: r5 =>
            (let r6 := match r5 with | '+' :: r6 => r6 | '-' :: r6 => r6 | _ => r5
             let p := jDigits r6
             if p.1.isEmpty then none else some (false, p.2))
          | _ => some (true, r4)
        match expo with
        | none => none
        | some (int2, r7) =>
          some (int1 ∧ int2, if signed.1 then -(n : Int) else (n : Int), r7)

mutual

/-- Skip one arbitrary JSON value, as Go's decoder does for an object
field that matches no struct field. -/
def jSkipValue (fuel : Nat) (cs : List Char) : Option (List Char) :=
  match fuel with
  | 0 => none
  | fuel + 1 =>
    let cs := jSkipWS cs
    match cs with
    | '"' :: _ => (jString fuel cs).map (fun p => p.2)
    | '\x7b' :: rest =>
      (match jSkipWS rest with
       | '\x7d' :: r2 => some r2
       | r2 => jSkipMembers fuel r2)
    | '[' :: rest =>
      (match jSkipWS rest with
       | ']' :: r2 => some r2
       | r2 => jSkipElems fuel r2)
    | 't' :: _ => jLit "true".toList cs
    | 'f' :: _ => jLit "false".toList cs
    | 'n' :: _ => jLit "null".toList cs
    | _ => (jNumberLit cs).map (fun p => p.2.2)

/-- Skip the members of a non-empty JSON object, consuming the closing
brace. -/
def jSkipMembers (fuel : Nat) (cs : List Char) : Option (List Char) :=
  match fuel with
  | 0 => none
  | fuel + 1 =>
    match jString fuel (jSkipWS cs) with
    | none => none
    | some (_, r) =>
      match jSkipWS r with
      | ':' :: r2 =>
        (match jSkipValue fuel r2 with
         | none => none
         | some r3 =>
           match jSkipWS r3 with
           | ',' :: r4 => jSkipMembers fuel r4
           | '\x7d' :: r4 => some r4
           | _ => none)
      | _ => none

/-- Skip the elements of a non-empty JSON array, consuming the closing
bracket. -/
def jSkipElems (fuel : Nat) (cs : List Char) : Option (List Char) :=
  match fuel with
  | 0 => none
  | fuel + 1 =>
    match jSkipValue fuel cs with
    | none => none
    | some r =>
      match jSkipWS r with
      | ',' :: r2 => jSkipElems fuel r2
      | ']' :: r2 => some r2
      | _ => none

end

/-- One member of a Step object, then either `,` (more members) or the
closing brace.  As in encoding/json: the key (a JSON string, unescaped)
matches a field name case-insensitively, an unknown key's value is
skipped, a later duplicate wins, `null` leaves a field unchanged, the
`replicas` value must be a plain integer within int32 range, and the
`pause` value must be a boolean. -/
def jStepField (fuel : Nat) (cs : List Char) (acc : Step) : Option (Step × List Char) :=
  match fuel with
  | 0 => none
  | fuel + 1 =>
    match jString fuel (jSkipWS cs) with
    | none => none
    | some (key, r) =>
      match jSkipWS r with
      | ':' :: r2 =>
        let r2 := jSkipWS r2
        let fieldDone : Step → List Char → Option (Step × List Char) := fun acc2 rest =>
          match jSkipWS rest with
          | ',' :: r4 => jStepField fuel r4 acc2
          | '\x7d' :: r4 => some (acc2, r4)
          | _ => none
        if jFoldEq key "replicas".toList then
          match jLit "null".toList r2 with
          | some r3 => fieldDone acc r3
          | none =>
            match jNumberLit r2 with
            | some (true, n, r3) =>
              if -2147483648 ≤ n ∧ n ≤ 2147483647 then
                fieldDone { acc with replicas := n } r3
              else none
            | _ => none
        else if jFoldEq key "pause".toList then
          match jLit "null".toList r2 with
          | some r3 => fieldDone acc r3
          | none =>
            match jLit "true".toList r2 with
            | some r3 => fieldDone { acc with pause := true } r3
            | none =>
              match jLit "false".toList r2 with
              | some r3 => fieldDone { acc with pause := false } r3
              | none => none
        else
          match jSkipValue fuel r2 with
          | none => none
          | some r3 => fieldDone acc r3
      | _ => none

/-- One Step element: an object `\x7b ... \x7d`, or `null` (which Go
decodes as the zero Step without error). -/
def jStep (fuel : Nat) (cs : List Char) : Option (Step × List Char) :=
  match jSkipWS cs with
  | '\x7b' :: rest =>
    (match jSkipWS rest with
     | '\x7d' :: rest2 => some ({ replicas := 0, pause := false }, rest2)
     | _ => jStepField fuel rest { replicas := 0, pause := false })
  | cs2 =>
    match jLit "null".toList cs2 with
    | some rest => some ({ replicas := 0, pause := false }, rest)
    | none => none

/-- The comma-separated elements of a non-empty Step array, consuming the
closing bracket. -/
def jStepsElems (fuel : Nat) (cs : List Char) : Option (List Step × List Char) :=
  match fuel with
  | 0 => none
  | fuel + 1 =>
    match jStep fuel cs with
    | none => none
    | some (s, rest) =>
      match jSkipWS rest with
      | ',' :: rest2 => (jStepsElems fuel rest2).map (fun p => (s :: p.1, p.2))
      | ']' :: rest2 => some ([s], rest2)
      | _ => none

/-- json.Unmarshal of a []Step: an array of Step objects, or `null`. -/
def parseStepsJSON (s : String) : Option (List Step) :=
  let cs := jSkipWS s.toList
  match cs with
  | '[' :: rest =>
    (match jSkipWS rest with
     | ']' :: rest2 => if (jSkipWS rest2).isEmpty then some [] else none
     | _ =>
       match jStepsElems (s.length + 2) rest with
       | some (l, rest2) => if (jSkipWS rest2).isEmpty then some l else none
       | none => none)
  | _ =>
    match jLit "null".toList cs with
    | some rest => if (jSkipWS rest).isEmpty then some [] else none
    | none => none

/-- strconv.ParseInt(s, 10, 0 or 64): optional sign, one or more digits,
64-bit range check; anything else is an error (`none`). -/
def parseIntGo (s : String) : Option Int :=
  let core : List Char → Option Nat := fun ds =>
    if ds.isEmpty then none
    else if ds.all (·.isDigit) then some (jDigitsVal ds) else none
  match s.toList with
  | '+' :: ds =>
    (core ds).bind (fun n => if n ≤ 9223372036854775807 then some (n : Int) else none)
  | '-' :: ds =>
    (core ds).bind (fun n => if n ≤ 9223372036854775808 then some (-(n : Int)) else none)
  | ds =>
    (core ds).bind (fun n => if n ≤ 9223372036854775807 then some (n : Int) else none)

/- ---------------------------------------------------------------------
Annotation codec (src/model.go).
--------------------------------------------------------------------- -/

/-- The error classes of ReadScaleAnnotation: the three missing-key
sentinels, and any parse failure of a present field (json / strconv
errors, which the engine only distinguishes from the sentinels). -/
inductive ReadErr where
  | missingSteps
  | missingIndex
  | missingState
  | malformed
deriving Repr, DecidableEq

/-- Whether the engine classifies this decode error as "not managed by a
rollout plan" (one of the three `errors.Is` sentinel comparisons in
src/reconciler.go lines 40-50). -/
def ReadErr.notManaged : ReadErr → Bool
  | .malformed => false
  | _ => true

/-- src/model.go `ReadScaleAnnotation`.  `now` is the wall clock read by
`NewScaleAnnotation` for the default LastUpdateTime.  Keys are examined in
the source's order: steps, current_step_index, current_step_state, then
the optional max_wait_available_time, max_unavailable_replicas,
last_update_time, message. -/
def ReadScaleAnnot (ann : Option Ann) (now : Int) : Except ReadErr ScaleAnnot :=
  match lookupOpt ann "steps" with
  | none => .error .missingSteps
  | some stepsJSON =>
    match parseStepsJSON stepsJSON with
    | none => .error .malformed
    | some steps =>
      match lookupOpt ann "current_step_index" with
      | none => .error .missingIndex
      | some idxStr =>
        match parseIntGo idxStr with
        | none => .error .malformed
        | some idx =>
          match lookupOpt ann "current_step_state" with
          | none => .error .missingState
          | some st =>
            match (match lookupOpt ann "max_wait_available_time" with
                   | none => some 600
                   | some s => parseIntGo s) with
            | none => .error .malformed
            | some maxWait =>
              match (match lookupOpt ann "max_unavailable_replicas" with
                     | none => some 1
                     | some s => parseIntGo s) with
              | none => .error .malformed
              | some maxUnavail =>
                match (match lookupOpt ann "last_update_time" with
                       | none => some now
                       | some s => parseIntGo s) with
                | none => .error .malformed
                | some lastUpdate =>
                  .ok { Steps := steps
                        CurrentStepIndex := idx
                        CurrentStepState := st
                        Message := (lookupOpt ann "message").getD ""
                        MaxWaitAvailableSecond := maxWait
                        MaxUnavailableReplicas := maxUnavail
                        LastUpdateTime := lastUpdate }

/-- src/model.go `SetScaleAnnotation`: overwrite exactly the seven owned
keys, creating the map when it is nil. -/
def SetScaleAnnot (ann : Option Ann) (sa : ScaleAnnot) : Ann :=
  let m := match ann with | none => [] | some m => m
  let m := setAnn m "steps" (stepsToJSON sa.Steps)
  let m := setAnn m "current_step_index" (toString sa.CurrentStepIndex)
  let m := setAnn m "current_step_state" sa.CurrentStepState
  let m := setAnn m "message" sa.Message
  let m := setAnn m "max_wait_available_time" (toString sa.MaxWaitAvailableSecond)
  let m := setAnn m "max_unavailable_replicas" (toString sa.MaxUnavailableReplicas)
  let m := setAnn m "last_update_time" (toString sa.LastUpdateTime)
  m

/- ---------------------------------------------------------------------
Reconcile engine (src/reconciler.go).
--------------------------------------------------------------------- -/

/-- The workload snapshot consumed by one reconcile pass: Spec.Replicas
(a nullable *int32), Spec.Paused, the status counts, and the annotation
map (nil when absent). -/
structure Deployment where
  specReplicas : Option Int
  specPaused : Bool
  statusReplicas : Int
  availableReplicas : Int
  unavailableReplicas : Int
  annotations : Option Ann
deriving Repr, DecidableEq

/-- The observable result of one reconcile pass: the workload as mutated
and patched (unchanged when no mutation happened), the RequeueAfter
duration of the returned reconcile.Result (0 when none), whether a
non-nil error was returned, and the plan passed to
SetDeploymentScaleAnnotation when the pass persisted one (`none` when the
pass did not encode a plan). -/
structure Outcome where
  dep : Deployment
  requeueAfter : Int
  err : Bool
  persisted : Option ScaleAnnot
deriving Repr, DecidableEq

/-- Go's int32(x) conversion of a 64-bit int: two's-complement
truncation to 32 bits, as applied to MaxUnavailableReplicas in the
tolerance comparisons (src/reconciler.go lines 114 and 195). -/
def int32Of (n : Int) : Int :=
  (n + 2147483648) % 4294967296 - 2147483648

/-- The step `steps[i-1]` for the 1-based CurrentStepIndex; `none` models the Go
panic on an out-of-range index. -/
def stepAt (steps : List Step) (idx : Int) : Option Step :=
  if idx < 1 then none else steps.get? (idx - 1).toNat

/-- src/reconciler.go `fixDeploymentReplicas` (lines 360-385): force
Spec.Replicas back to the current step's target, re-derive Paused/Upgrade
from that step's pause flag, stamp LastUpdateTime, encode and patch.
Returns the patched deployment and the persisted plan; `none` models the
panic on an invalid index. -/
def fixDeploymentReplicas (d : Deployment) (sa : ScaleAnnot) (now : Int) :
    Option (Deployment × ScaleAnnot) :=
  match stepAt sa.Steps sa.CurrentStepIndex with
  | none => none
  | some step =>
    let sa' := { sa with
      CurrentStepState := if step.pause then StepStatePaused else StepStateUpgrade
      LastUpdateTime := now }
    some ({ d with
             specReplicas := some step.replicas
             annotations := some (SetScaleAnnot d.annotations sa') }, sa')

/-- The `case StepStateUpgrade` body (src/reconciler.go lines 65-160).
`sr` is the already-dereferenced *deployment.Spec.Replicas. -/
def upgradeStep (d : Deployment) (sa : ScaleAnnot) (sr : Int) (now : Int) : Option Outcome :=
  match stepAt sa.Steps sa.CurrentStepIndex with
  | none => none
  | some curStep =>
    if sr ≠ curStep.replicas then
      match fixDeploymentReplicas d sa now with
      | none => none
      | some (d', sa') => some ⟨d', 5, false, some sa'⟩
    else if d.specPaused then
      some ⟨{ d with specPaused := false }, 5, false, none⟩
    else if d.statusReplicas ≠ sr then
      some ⟨d, 5, true, none⟩
    else if d.statusReplicas = d.availableReplicas then
      let sa' := { sa with
        CurrentStepState :=
          if sa.CurrentStepIndex = (sa.Steps.length : Int) then StepStateCompleted
          else StepStateReady
        LastUpdateTime := now }
      some ⟨{ d with annotations := some (SetScaleAnnot d.annotations sa') }, 0, false, some sa'⟩
    else if now < StepDeadline sa then
      some ⟨d, 5, false, none⟩
    else if d.unavailableReplicas > int32Of sa.MaxUnavailableReplicas then
      let sa' := { sa with CurrentStepState := StepStateTimeout, LastUpdateTime := now }
      some ⟨{ d with annotations := some (SetScaleAnnot d.annotations sa') }, 0, false, some sa'⟩
    else
      let sa' := { sa with
        CurrentStepState :=
          if sa.CurrentStepIndex = (sa.Steps.length : Int) then StepStateCompleted
          else StepStateReady
        LastUpdateTime := now }
      some ⟨{ d with annotations := some (SetScaleAnnot d.annotations sa') }, 0, false, some sa'⟩

/-- The `case StepStatePaused` body (src/reconciler.go lines 162-235). -/
def pausedStep (d : Deployment) (sa : ScaleAnnot) (sr : Int) (now : Int) : Option Outcome :=
  match stepAt sa.Steps sa.CurrentStepIndex with
  | none => none
  | some curStep =>
    if sr ≠ curStep.replicas then
      match fixDeploymentReplicas d sa now with
      | none => none
      | some (d', sa') => some ⟨d', 5, false, some sa'⟩
    else if d.statusReplicas ≠ sr then
      some ⟨d, 5, true, none⟩
    else if d.statusReplicas = d.availableReplicas then
      if d.specPaused then
        some ⟨d, 0, false, none⟩
      else
        let sa' := { sa with LastUpdateTime := now }
        some ⟨{ d with specPaused := true
                       annotations := some (SetScaleAnnot d.annotations sa') },
              0, false, some sa'⟩
    else if now < StepDeadline sa then
      some ⟨d, 5, false, none⟩
    else if d.unavailableReplicas > int32Of sa.MaxUnavailableReplicas then
      let sa' := { sa with CurrentStepState := StepStateTimeout, LastUpdateTime := now }
      some ⟨{ d with annotations := some (SetScaleAnnot d.annotations sa') }, 0, false, some sa'⟩
    else if d.specPaused then
      some ⟨d, 0, false, none⟩
    else
      let sa' := { sa with LastUpdateTime := now }
      some ⟨{ d with specPaused := true
                     annotations := some (SetScaleAnnot d.annotations sa') },
            0, false, some sa'⟩

/-- The `case StepStateReady` body (src/reconciler.go lines 237-310). -/
def readyStep (d : Deployment) (sa : ScaleAnnot) (sr : Int) (now : Int) : Option Outcome :=
  match stepAt sa.Steps sa.CurrentStepIndex with
  | none => none
  | some curStep =>
    if sr ≠ curStep.replicas then
      match fixDeploymentReplicas d sa now with
      | none => none
      | some (d', sa') => some ⟨d', 5, false, some sa'⟩
    else if d.specPaused then
      some ⟨{ d with specPaused := false }, 5, false, none⟩
    else if sa.CurrentStepIndex = (sa.Steps.length : Int) then
      let sa' := { sa with CurrentStepState := StepStateCompleted, LastUpdateTime := now }
      some ⟨{ d with annotations := some (SetScaleAnnot d.annotations sa') }, 0, false, some sa'⟩
    else
      match stepAt sa.Steps (sa.CurrentStepIndex + 1) with
      | none => none
      | some nextStep =>
        let sa' := { sa with
          CurrentStepIndex := sa.CurrentStepIndex + 1
          CurrentStepState := if nextStep.pause then StepStatePaused else StepStateUpgrade
          LastUpdateTime := now }
        some ⟨{ d with
                 specReplicas := some nextStep.replicas
                 annotations := some (SetScaleAnnot d.annotations sa') },
              0, false, some sa'⟩

/-- The `case StepStateCompleted` body (src/reconciler.go lines 312-319). -/
def completedStep (d : Deployment) (sa : ScaleAnnot) (sr : Int) (now : Int) : Option Outcome :=
  match stepAt sa.Steps sa.CurrentStepIndex with
  | none => none
  | some curStep =>
    if sr ≠ curStep.replicas then
      match fixDeploymentReplicas d sa now with
      | none => none
      | some (d', sa') => some ⟨d', 5, false, some sa'⟩
    else
      some ⟨d, 0, false, none⟩

/-- The `case StepStateTimeout` body (src/reconciler.go lines 321-333). -/
def timeoutStep (d : Deployment) (sa : ScaleAnnot) (sr : Int) (now : Int) : Option Outcome :=
  match stepAt sa.Steps sa.CurrentStepIndex with
  | none => none
  | some curStep =>
    if sr ≠ curStep.replicas then
      match fixDeploymentReplicas d sa now with
      | none => none
      | some (d', sa') => some ⟨d', 5, false, some sa'⟩
    else
      some ⟨{ d with specPaused := true }, 0, false, none⟩

/-- src/reconciler.go `Reconcile` (lines 25-337), for a deployment that
exists: decode the annotations, classify decode errors by the sentinel
comparison, then dereference *deployment.Spec.Replicas (the logging call
at line 54 evaluates it unconditionally, so a nil pointer is a panic:
`none`), then dispatch on CurrentStepState; an unrecognized state string
falls through the switch and returns success with no mutation. -/
def reconcile (d : Deployment) (now : Int) : Option Outcome :=
  match ReadScaleAnnot d.annotations now with
  | .error e =>
    if e.notManaged then some ⟨d, 0, false, none⟩
    else some ⟨d, 0, true, none⟩
  | .ok sa =>
    match d.specReplicas with
    | none => none
    | some sr =>
      if sa.CurrentStepState = StepStateUpgrade then upgradeStep d sa sr now
      else if sa.CurrentStepState = StepStatePaused then pausedStep d sa sr now
      else if sa.CurrentStepState = StepStateReady then readyStep d sa sr now
      else if sa.CurrentStepState = StepStateCompleted then completedStep d sa sr now
      else if sa.CurrentStepState = StepStateTimeout then timeoutStep d sa sr now
      else some ⟨d, 0, false, none⟩

/- ---------------------------------------------------------------------
Helper lemmas.
--------------------------------------------------------------------- -/

/-- The plan that `fixDeploymentReplicas` stamps and persists. -/
def driftFixPlan (sa : ScaleAnnot) (step : Step) (now : Int) : ScaleAnnot :=
  { sa with
    CurrentStepState := if step.pause then StepStatePaused else StepStateUpgrade
    LastUpdateTime := now }

theorem fixDeploymentReplicas_eq (d : Deployment) (sa : ScaleAnnot) (now : Int) (step : Step)
    (hstep : stepAt sa.Steps sa.CurrentStepIndex = some step) :
    fixDeploymentReplicas d sa now =
      some ({ d with
               specReplicas := some step.replicas
               annotations := some (SetScaleAnnot d.annotations (driftFixPlan sa step now)) },
            driftFixPlan sa step now) := by
  simp [fixDeploymentReplicas, hstep, driftFixPlan]

/-- The outcome of the drift gate, common to all five states. -/
def driftOutcome (d : Deployment) (sa : ScaleAnnot) (step : Step) (now : Int) : Outcome :=
  ⟨{ d with
      specReplicas := some step.replicas
      annotations := some (SetScaleAnnot d.annotations (driftFixPlan sa step now)) },
   5, false, some (driftFixPlan sa step now)⟩

theorem upgradeStep_drift (d : Deployment) (sa : ScaleAnnot) (sr now : Int) (step : Step)
    (hstep : stepAt sa.Steps sa.CurrentStepIndex = some step) (hdrift : sr ≠ step.replicas) :
    upgradeStep d sa sr now = some (driftOutcome d sa step now) := by
  simp [upgradeStep, hstep, hdrift, fixDeploymentReplicas_eq d sa now step hstep, driftOutcome]

theorem pausedStep_drift (d : Deployment) (sa : ScaleAnnot) (sr now : Int) (step : Step)
    (hstep : stepAt sa.Steps sa.CurrentStepIndex = some step) (hdrift : sr ≠ step.replicas) :
    pausedStep d sa sr now = some (driftOutcome d sa step now) := by
  simp [pausedStep, hstep, hdrift, fixDeploymentReplicas_eq d sa now step hstep, driftOutcome]

theorem readyStep_drift (d : Deployment) (sa : ScaleAnnot) (sr now : Int) (step : Step)
    (hstep : stepAt sa.Steps sa.CurrentStepIndex = some step) (hdrift : sr ≠ step.replicas) :
    readyStep d sa sr now = some (driftOutcome d sa step now) := by
  simp [readyStep, hstep, hdrift, fixDeploymentReplicas_eq d sa now step hstep, driftOutcome]

theorem completedStep_drift (d : Deployment) (sa : ScaleAnnot) (sr now : Int) (step : Step)
    (hstep : stepAt sa.Steps sa.CurrentStepIndex = some step) (hdrift : sr ≠ step.replicas) :
    completedStep d sa sr now = some (driftOutcome d sa step now) := by
  simp [completedStep, hstep, hdrift, fixDeploymentReplicas_eq d sa now step hstep, driftOutcome]

theorem timeoutStep_drift (d : Deployment) (sa : ScaleAnnot) (sr now : Int) (step : Step)
    (hstep : stepAt sa.Steps sa.CurrentStepIndex = some step) (hdrift : sr ≠ step.replicas) :
    timeoutStep d sa sr now = some (driftOutcome d sa step now) := by
  simp [timeoutStep, hstep, hdrift, fixDeploymentReplicas_eq d sa now step hstep, driftOutcome]

/- ---------------------------------------------------------------------
C1.
--------------------------------------------------------------------- -/

/-- C1: in every plan state (StepUpgrade, StepPaused, StepReady, Completed
and Timeout alike), when the observed Spec.Replicas differs from the
current step's target, one reconcile pass forces Spec.Replicas to
`Steps[currentStepIndex-1].replicas`, sets the state to StepPaused when
that step's pause flag is set and to StepUpgrade otherwise, stamps
LastUpdateTime to now, persists the plan, returns RequeueAfter 5 with no
error, and leaves CurrentStepIndex unchanged; the gate preempts all
state-specific logic (no other snapshot field is constrained). -/
theorem C1_drift_gate (d : Deployment) (sa : ScaleAnnot) (now v : Int) (step : Step)
    (hdec : ReadScaleAnnot d.annotations now = .ok sa)
    (hstate : sa.CurrentStepState = StepStateUpgrade ∨ sa.CurrentStepState = StepStatePaused ∨
      sa.CurrentStepState = StepStateReady ∨ sa.CurrentStepState = StepStateCompleted ∨
      sa.CurrentStepState = StepStateTimeout)
    (hspec : d.specReplicas = some v)
    (hstep : stepAt sa.Steps sa.CurrentStepIndex = some step)
    (hdrift : v ≠ step.replicas) :
    reconcile d now = some (driftOutcome d sa step now) ∧
      (driftFixPlan sa step now).CurrentStepIndex = sa.CurrentStepIndex ∧
      (driftFixPlan sa step now).CurrentStepState =
        (if step.pause then StepStatePaused else StepStateUpgrade) ∧
      (driftFixPlan sa step now).LastUpdateTime = now := by
  refine ⟨?_, rfl, rfl, rfl⟩
  rcases hstate with h | h | h | h | h <;>
    simp [reconcile, hdec, hspec, h, StepStateUpgrade, StepStatePaused, StepStateReady,
      StepStateCompleted, StepStateTimeout,
      upgradeStep_drift d sa v now step hstep hdrift,
      pausedStep_drift d sa v now step hstep hdrift,
      readyStep_drift d sa v now step hstep hdrift,
      completedStep_drift d sa v now step hstep hdrift,
      timeoutStep_drift d sa v now step hstep hdrift]

/-- The spec's worked example plan: `Steps=[1, 2, 5, 8 pause, 10]`. -/
def stepsFive : List Step := [⟨1, false⟩, ⟨2, false⟩, ⟨5, false⟩, ⟨8, true⟩, ⟨10, false⟩]

/-- The list `stepsFive` in its persisted JSON form. -/
def stepsFiveJSON : String :=
  "[\x7b\"replicas\":1\x7d,\x7b\"replicas\":2\x7d,\x7b\"replicas\":5\x7d,\x7b\"replicas\":8,\"pause\":true\x7d,\x7b\"replicas\":10\x7d]"

def c1Bag : Ann :=
  [("steps", stepsFiveJSON), ("current_step_index", "3"),
   ("current_step_state", "Timeout"), ("last_update_time", "100")]

def c1Plan : ScaleAnnot := ⟨stepsFive, 3, "Timeout", "", 600, 1, 100⟩

def c1Dep : Deployment := ⟨some 999, false, 5, 5, 0, some c1Bag⟩

/-- Witness for C1: the spec's drift scenario (plan at index 3, target 5,
desired externally set to 999, here in the terminal Timeout state): the
pass resets desired to 5, re-derives StepUpgrade, stamps time 200,
requeues after 5, and the index stays 3. -/
theorem C1_drift_gate_witness :
    ReadScaleAnnot c1Dep.annotations 200 = .ok c1Plan ∧
      (999 : Int) ≠ (Step.replicas ⟨5, false⟩) ∧
      (reconcile c1Dep 200 = some (driftOutcome c1Dep c1Plan ⟨5, false⟩ 200) ∧
        (driftFixPlan c1Plan ⟨5, false⟩ 200).CurrentStepIndex = c1Plan.CurrentStepIndex ∧
        (driftFixPlan c1Plan ⟨5, false⟩ 200).CurrentStepState =
          (if (Step.pause ⟨5, false⟩) then StepStatePaused else StepStateUpgrade) ∧
        (driftFixPlan c1Plan ⟨5, false⟩ 200).LastUpdateTime = 200) :=
  ⟨rfl, by decide,
    C1_drift_gate c1Dep c1Plan 200 999 ⟨5, false⟩ rfl
      (by simp [c1Plan, StepStateTimeout]) rfl rfl (by decide)⟩

/- ---------------------------------------------------------------------
C2.
--------------------------------------------------------------------- -/

/-- The plan that the StepStateReady advance persists. -/
def advancePlan (sa : ScaleAnnot) (nextStep : Step) (now : Int) : ScaleAnnot :=
  { sa with
    CurrentStepIndex := sa.CurrentStepIndex + 1
    CurrentStepState := if nextStep.pause then StepStatePaused else StepStateUpgrade
    LastUpdateTime := now }

/-- C4: in state StepReady, drift-free, unpaused, with CurrentStepIndex
strictly below len(Steps): one pass sets Spec.Replicas to the next step's
target, increments CurrentStepIndex by one, sets the state to StepPaused
when the next step's pause flag is set and to StepUpgrade otherwise,
stamps LastUpdateTime, and persists (no constraint on the status counts:
the advance does not consult them). -/
theorem C4_ready_advance (d : Deployment) (sa : ScaleAnnot) (now v : Int) (step nextStep : Step)
    (hdec : ReadScaleAnnot d.annotations now = .ok sa)
    (h₁ : sa.CurrentStepState = StepStateReady)
    (hspec : d.specReplicas = some v)
    (hstep : stepAt sa.Steps sa.CurrentStepIndex = some step)
    (h₂ : v = step.replicas)
    (h₃ : d.specPaused = false)
    (h₄ : sa.CurrentStepIndex < (sa.Steps.length : Int))
    (hnext : stepAt sa.Steps (sa.CurrentStepIndex + 1) = some nextStep) :
    reconcile d now =
      some ⟨{ d with
               specReplicas := some nextStep.replicas
               annotations := some (SetScaleAnnot d.annotations (advancePlan sa nextStep now)) },
            0, false, some (advancePlan sa nextStep now)⟩ := by
  have hne : sa.CurrentStepIndex ≠ (sa.Steps.length : Int) := ne_of_lt h₄
  simp [reconcile, hdec, hspec, h₁, readyStep, hstep, h₂, h₃, hne, hnext, advancePlan,
    StepStateUpgrade, StepStatePaused, StepStateReady, StepStateCompleted, StepStateTimeout]

def c4Bag : Ann :=
  [("steps", stepsFiveJSON), ("current_step_index", "1"),
   ("current_step_state", "StepReady"), ("last_update_time", "100")]

def c4Plan : ScaleAnnot := ⟨stepsFive, 1, "StepReady", "", 600, 1, 100⟩

def c4Dep : Deployment := ⟨some 1, false, 1, 1, 0, some c4Bag⟩

def c4Out : Outcome :=
  ⟨{ c4Dep with specReplicas := some 2, annotations := some (SetScaleAnnot c4Dep.annotations (advancePlan c4Plan ⟨2, false⟩ 200)) },
   0, false, some (advancePlan c4Plan ⟨2, false⟩ 200)⟩

/-- Witness for C4: the spec's example — Steps=[1,2,5,8 pause,10],
index=1, state=Ready, desired=1, available=total=1: one pass yields
desired=2, index=2, state=StepUpgrade. -/
theorem C4_ready_advance_witness :
    ReadScaleAnnot c4Dep.annotations 200 = .ok c4Plan ∧
      c4Plan.CurrentStepIndex < (c4Plan.Steps.length : Int) ∧
      reconcile c4Dep 200 = some c4Out ∧
      (advancePlan c4Plan ⟨2, false⟩ 200).CurrentStepIndex = 2 ∧
      (advancePlan c4Plan ⟨2, false⟩ 200).CurrentStepState = "StepUpgrade" ∧
      c4Out.dep.specReplicas = some 2 :=
  ⟨rfl, by decide,
    C4_ready_advance c4Dep c4Plan 200 1 ⟨1, false⟩ ⟨2, false⟩ rfl rfl rfl (by decide)
      (by decide) rfl (by decide) (by decide),
    by decide, by decide, by decide⟩

/- ---------------------------------------------------------------------
C5.
--------------------------------------------------------------------- -/

/-- The plan that the fully-healthy branch of StepStateUpgrade persists:
Completed on the last step, else Ready, with the time stamped. -/
def healthyPlan (sa : ScaleAnnot) (now : Int) : ScaleAnnot :=
  { sa with
    CurrentStepState :=
      if sa.CurrentStepIndex = (sa.Steps.length : Int) then StepStateCompleted
      else StepStateReady
    LastUpdateTime := now }

/-- C5: in state StepUpgrade, drift-free and unpaused: (1) when the total
replica count differs from the desired count the pass returns the
transient waiting-for-rollout failure with RequeueAfter 5 and no
mutation; (2) when instead total equals desired and available equals
total, the pass sets the state to Completed when CurrentStepIndex equals
len(Steps) and to StepReady otherwise, stamps LastUpdateTime, and
persists. -/
theorem C5_upgrade_progress (d : Deployment) (sa : ScaleAnnot) (now v : Int) (step : Step)
    (hdec : ReadScaleAnnot d.annotations now = .ok sa)
    (h₁ : sa.CurrentStepState = StepStateUpgrade)
    (hspec : d.specReplicas = some v)
    (hstep : stepAt sa.Steps sa.CurrentStepIndex = some step)
    (h₂ : v = step.replicas)
    (h₃ : d.specPaused = false) :
    (d.statusReplicas ≠ v → reconcile d now = some ⟨d, 5, true, none⟩) ∧
    (d.statusReplicas = v → d.availableReplicas = d.statusReplicas →
      reconcile d now =
        some ⟨{ d with annotations := some (SetScaleAnnot d.annotations (healthyPlan sa now)) },
              0, false, some (healthyPlan sa now)⟩) := by
  constructor
  · intro hw
    simp [reconcile, hdec, hspec, h₁, upgradeStep, hstep, h₂, h₃, hw, StepStateUpgrade,
      StepStatePaused, StepStateReady, StepStateCompleted, StepStateTimeout]
    intro hceq
    exact absurd (hceq ▸ hw) (by simp [h₂])
  · intro ht ha
    have hca : step.replicas = d.availableReplicas := by
      rw [← h₂, ← ht]; exact ha.symm
    simp [reconcile, hdec, hspec, h₁, upgradeStep, hstep, h₂, h₃, ht, hca, healthyPlan,
      StepStateUpgrade, StepStatePaused, StepStateReady, StepStateCompleted, StepStateTimeout]

def c5Bag : Ann :=
  [("steps", stepsFiveJSON), ("current_step_index", "2"),
   ("current_step_state", "StepUpgrade"), ("last_update_time", "100")]

def c5Plan : ScaleAnnot := ⟨stepsFive, 2, "StepUpgrade", "", 600, 1, 100⟩

def c5DepWaiting : Deployment := ⟨some 2, false, 1, 1, 0, some c5Bag⟩

def c5DepHealthy : Deployment := ⟨some 2, false, 2, 2, 0, some c5Bag⟩

def c5OutHealthy : Outcome :=
  ⟨{ c5DepHealthy with annotations := some (SetScaleAnnot c5DepHealthy.annotations (healthyPlan c5Plan 200)) },
   0, false, some (healthyPlan c5Plan 200)⟩

/-- Witness for C5: at index 2 of the five-step plan with desired 2:
total 1 ≠ desired 2 gives the transient failure with retry after 5 and no
mutation; total = available = desired = 2 advances the plan to StepReady
(not the last step) with the time stamped. -/
theorem C5_upgrade_progress_witness :
    (ReadScaleAnnot c5DepWaiting.annotations 200 = .ok c5Plan ∧
      c5DepWaiting.statusReplicas ≠ (2 : Int) ∧
      reconcile c5DepWaiting 200 = some ⟨c5DepWaiting, 5, true, none⟩) ∧
    (reconcile c5DepHealthy 200 = some c5OutHealthy ∧
      (healthyPlan c5Plan 200).CurrentStepState = "StepReady") :=
  ⟨⟨rfl, by decide,
    (C5_upgrade_progress c5DepWaiting c5Plan 200 2 ⟨2, false⟩ rfl rfl rfl (by decide)
      (by decide) rfl).1 (by decide)⟩,
   ⟨(C5_upgrade_progress c5DepHealthy c5Plan 200 2 ⟨2, false⟩ rfl rfl rfl (by decide)
      (by decide) rfl).2 rfl rfl, by decide⟩⟩

/- ---------------------------------------------------------------------
C3.
--------------------------------------------------------------------- -/

theorem lookupAnn_setAnn (m : Ann) (k v q : String) :
    lookupAnn (setAnn m k v) q = if q = k then some v else lookupAnn m q := by
  induction m with
  | nil =>
    by_cases h : q = k
    · subst h; simp [setAnn, lookupAnn]
    · have h' : ¬ k = q := fun hh => h hh.symm
      simp [setAnn, lookupAnn, h, h']
  | cons p rest ih =>
    obtain ⟨k0, v0⟩ := p
    simp only [setAnn]
    by_cases h0 : k0 = k <;> by_cases hq : q = k <;> by_cases h0q : k0 = q <;>
      simp_all [lookupAnn]

/-- Decode success pins the stored current_step_state string: the codec
copies it verbatim into the plan. -/
theorem ReadScaleAnnot_state (m : Ann) (now : Int) (sa : ScaleAnnot)
    (h : ReadScaleAnnot (some m) now = .ok sa) :
    lookupAnn m "current_step_state" = some sa.CurrentStepState := by
  unfold ReadScaleAnnot at h
  simp only [lookupOpt] at h
  repeat' split at h
  all_goals simp_all
  all_goals exact congrArg (fun x => x.CurrentStepState) h

/-- The six keys where the decode-then-encode round trip may rewrite the
bag; the seventh codec-owned key, current_step_state, round-trips to its
original value. -/
def ownedSix : List String :=
  ["steps", "current_step_index", "message", "max_wait_available_time",
   "max_unavailable_replicas", "last_update_time"]

/-- C6: for every bag m that decodes to plan sa, encoding sa back into m
changes at most the six codec-owned keys of `ownedSix`: every other key —
every key the codec does not own, and also the owned current_step_state
key — keeps its value; and encoding into an absent (nil) bag creates the
bag rather than failing, behaving as encoding into an empty one. -/
theorem C6_roundtrip_frame (m : Ann) (now : Int) (sa : ScaleAnnot) (k : String)
    (hdec : ReadScaleAnnot (some m) now = .ok sa)
    (hk : ¬ k ∈ ownedSix) :
    lookupAnn (SetScaleAnnot (some m) sa) k = lookupAnn m k ∧
      SetScaleAnnot none sa = SetScaleAnnot (some []) sa ∧
      lookupAnn (SetScaleAnnot none sa) "current_step_index" =
        some (toString sa.CurrentStepIndex) := by
  refine ⟨?_, rfl, by simp [SetScaleAnnot, lookupAnn_setAnn]⟩
  have hst := ReadScaleAnnot_state m now sa hdec
  simp only [ownedSix, List.mem_cons, List.not_mem_nil, or_false, not_or] at hk
  obtain ⟨h1, h2, h3, h4, h5, h6⟩ := hk
  by_cases hcs : k = "current_step_state"
  · subst hcs
    simp [SetScaleAnnot, lookupAnn_setAnn, hst]
  · simp [SetScaleAnnot, lookupAnn_setAnn, h1, h2, h3, h4, h5, h6, hcs]

def c6Bag : Ann :=
  [("team", "core"), ("steps", "[\x7b\"replicas\":2\x7d]"),
   ("current_step_index", "1"), ("current_step_state", "StepUpgrade")]

def c6Plan : ScaleAnnot := ⟨[⟨2, false⟩], 1, "StepUpgrade", "", 600, 1, 0⟩

/-- Witness for C6: the bag c6Bag (which carries the unrelated key
"team") decodes to c6Plan; re-encoding leaves "team" untouched, and
encoding into a nil bag creates one holding the plan. -/
theorem C6_roundtrip_frame_witness :
    ReadScaleAnnot (some c6Bag) 0 = .ok c6Plan ∧
      ¬ "team" ∈ ownedSix ∧
      (lookupAnn (SetScaleAnnot (some c6Bag) c6Plan) "team" = lookupAnn c6Bag "team" ∧
        SetScaleAnnot none c6Plan = SetScaleAnnot (some []) c6Plan ∧
        lookupAnn (SetScaleAnnot none c6Plan) "current_step_index" =
          some (toString c6Plan.CurrentStepIndex)) :=
  ⟨rfl, by decide, C6_roundtrip_frame c6Bag 0 c6Plan "team" rfl (by decide)⟩

/- ---------------------------------------------------------------------
Invariants of every persisting path, shared by C7 and C10.
--------------------------------------------------------------------- -/

/-- The invariant every persist call preserves: the Steps sequence, the
deadline budget, the tolerance, the message and the status counts are
untouched, and the persisted state string is one of the five enumeration
names or the (unchanged) decoded state. -/
def PersistInv (d : Deployment) (sa : ScaleAnnot) (o : Outcome) (sa' : ScaleAnnot) : Prop :=
  sa'.Steps = sa.Steps ∧ sa'.Message = sa.Message ∧
  sa'.MaxWaitAvailableSecond = sa.MaxWaitAvailableSecond ∧
  sa'.MaxUnavailableReplicas = sa.MaxUnavailableReplicas ∧
  (sa'.CurrentStepState = StepStatePaused ∨ sa'.CurrentStepState = StepStateUpgrade ∨
    sa'.CurrentStepState = StepStateReady ∨ sa'.CurrentStepState = StepStateCompleted ∨
    sa'.CurrentStepState = StepStateTimeout ∨ sa'.CurrentStepState = sa.CurrentStepState) ∧
  o.dep.statusReplicas = d.statusReplicas ∧ o.dep.availableReplicas = d.availableReplicas ∧
  o.dep.unavailableReplicas = d.unavailableReplicas

theorem fixDeploymentReplicas_inv (d : Deployment) (sa : ScaleAnnot) (now : Int)
    (p : Deployment × ScaleAnnot) (h : fixDeploymentReplicas d sa now = some p) :
    p.2.Steps = sa.Steps ∧ p.2.Message = sa.Message ∧
      p.2.MaxWaitAvailableSecond = sa.MaxWaitAvailableSecond ∧
      p.2.MaxUnavailableReplicas = sa.MaxUnavailableReplicas ∧
      p.2.CurrentStepIndex = sa.CurrentStepIndex ∧
      (p.2.CurrentStepState = StepStatePaused ∨ p.2.CurrentStepState = StepStateUpgrade) ∧
      p.1.statusReplicas = d.statusReplicas ∧ p.1.availableReplicas = d.availableReplicas ∧
      p.1.unavailableReplicas = d.unavailableReplicas := by
  unfold fixDeploymentReplicas at h
  split at h
  · exact absurd h (by simp)
  · next step heq =>
    rw [Option.some.injEq] at h
    subst h
    refine ⟨rfl, rfl, rfl, rfl, rfl, ?_, rfl, rfl, rfl⟩
    by_cases hp : step.pause <;> simp [hp]

theorem upgradeStep_inv (d : Deployment) (sa : ScaleAnnot) (sr now : Int) (o : Outcome)
    (sa' : ScaleAnnot) (h : upgradeStep d sa sr now = some o)
    (hp : o.persisted = some sa') : PersistInv d sa o sa' := by
  unfold PersistInv
  unfold upgradeStep at h
  split at h
  · exact Option.noConfusion h
  · next step hstep =>
    by_cases hdr : sr ≠ step.replicas
    · rw [if_pos hdr] at h
      split at h
      · exact Option.noConfusion h
      · next d2 sa2 hfix =>
        obtain ⟨e1, e2, e3, e4, e5, e6, e7, e8, e9⟩ :=
          fixDeploymentReplicas_inv d sa now (d2, sa2) hfix
        simp only [Option.some.injEq] at h
        subst h
        simp only [Option.some.injEq] at hp
        subst hp
        refine ⟨e1, e2, e3, e4, ?_, e7, e8, e9⟩
        rcases e6 with h | h
        · exact Or.inl h
        · exact Or.inr (Or.inl h)
    · rw [if_neg hdr] at h
      repeat' split at h
      all_goals first
        | exact Option.noConfusion h
        | (simp only [Option.some.injEq] at h; subst h;
           first
             | exact Option.noConfusion hp
             | (simp only [Option.some.injEq] at hp; subst hp;
                refine ⟨rfl, rfl, rfl, rfl, ?_, rfl, rfl, rfl⟩;
                first
                  | (split <;> simp)
                  | simp))

theorem pausedStep_inv (d : Deployment) (sa : ScaleAnnot) (sr now : Int) (o : Outcome)
    (sa' : ScaleAnnot) (h : pausedStep d sa sr now = some o)
    (hp : o.persisted = some sa') : PersistInv d sa o sa' := by
  unfold PersistInv
  unfold pausedStep at h
  split at h
  · exact Option.noConfusion h
  · next step hstep =>
    by_cases hdr : sr ≠ step.replicas
    · rw [if_pos hdr] at h
      split at h
      · exact Option.noConfusion h
      · next d2 sa2 hfix =>
        obtain ⟨e1, e2, e3, e4, e5, e6, e7, e8, e9⟩ :=
          fixDeploymentReplicas_inv d sa now (d2, sa2) hfix
        simp only [Option.some.injEq] at h
        subst h
        simp only [Option.some.injEq] at hp
        subst hp
        refine ⟨e1, e2, e3, e4, ?_, e7, e8, e9⟩
        rcases e6 with h | h
        · exact Or.inl h
        · exact Or.inr (Or.inl h)
    · rw [if_neg hdr] at h
      repeat' split at h
      all_goals first
        | exact Option.noConfusion h
        | (simp only [Option.some.injEq] at h; subst h;
           first
             | exact Option.noConfusion hp
             | (simp only [Option.some.injEq] at hp; subst hp;
                refine ⟨rfl, rfl, rfl, rfl, ?_, rfl, rfl, rfl⟩;
                first
                  | (split <;> simp)
                  | simp))

theorem readyStep_inv (d : Deployment) (sa : ScaleAnnot) (sr now : Int) (o : Outcome)
    (sa' : ScaleAnnot) (h : readyStep d sa sr now = some o)
    (hp : o.persisted = some sa') : PersistInv d sa o sa' := by
  unfold PersistInv
  unfold readyStep at h
  split at h
  · exact Option.noConfusion h
  · next step hstep =>
    by_cases hdr : sr ≠ step.replicas
    · rw [if_pos hdr] at h
      split at h
      · exact Option.noConfusion h
      · next d2 sa2 hfix =>
        obtain ⟨e1, e2, e3, e4, e5, e6, e7, e8, e9⟩ :=
          fixDeploymentReplicas_inv d sa now (d2, sa2) hfix
        simp only [Option.some.injEq] at h
        subst h
        simp only [Option.some.injEq] at hp
        subst hp
        refine ⟨e1, e2, e3, e4, ?_, e7, e8, e9⟩
        rcases e6 with h | h
        · exact Or.inl h
        · exact Or.inr (Or.inl h)
    · rw [if_neg hdr] at h
      repeat' split at h
      all_goals first
        | exact Option.noConfusion h
        | (simp only [Option.some.injEq] at h; subst h;
           first
             | exact Option.noConfusion hp
             | (simp only [Option.some.injEq] at hp; subst hp;
                refine ⟨rfl, rfl, rfl, rfl, ?_, rfl, rfl, rfl⟩;
                first
                  | (split <;> simp)
                  | simp))

theorem completedStep_inv (d : Deployment) (sa : ScaleAnnot) (sr now : Int) (o : Outcome)
    (sa' : ScaleAnnot) (h : completedStep d sa sr now = some o)
    (hp : o.persisted = some sa') : PersistInv d sa o sa' := by
  unfold PersistInv
  unfold completedStep at h
  split at h
  · exact Option.noConfusion h
  · next step hstep =>
    by_cases hdr : sr ≠ step.replicas
    · rw [if_pos hdr] at h
      split at h
      · exact Option.noConfusion h
      · next d2 sa2 hfix =>
        obtain ⟨e1, e2, e3, e4, e5, e6, e7, e8, e9⟩ :=
          fixDeploymentReplicas_inv d sa now (d2, sa2) hfix
        simp only [Option.some.injEq] at h
        subst h
        simp only [Option.some.injEq] at hp
        subst hp
        refine ⟨e1, e2, e3, e4, ?_, e7, e8, e9⟩
        rcases e6 with h | h
        · exact Or.inl h
        · exact Or.inr (Or.inl h)
    · rw [if_neg hdr] at h
      repeat' split at h
      all_goals first
        | exact Option.noConfusion h
        | (simp only [Option.some.injEq] at h; subst h;
           first
             | exact Option.noConfusion hp
             | (simp only [Option.some.injEq] at hp; subst hp;
                refine ⟨rfl, rfl, rfl, rfl, ?_, rfl, rfl, rfl⟩;
                first
                  | (split <;> simp)
                  | simp))

theorem timeoutStep_inv (d : Deployment) (sa : ScaleAnnot) (sr now : Int) (o : Outcome)
    (sa' : ScaleAnnot) (h : timeoutStep d sa sr now = some o)
    (hp : o.persisted = some sa') : PersistInv d sa o sa' := by
  unfold PersistInv
  unfold timeoutStep at h
  split at h
  · exact Option.noConfusion h
  · next step hstep =>
    by_cases hdr : sr ≠ step.replicas
    · rw [if_pos hdr] at h
      split at h
      · exact Option.noConfusion h
      · next d2 sa2 hfix =>
        obtain ⟨e1, e2, e3, e4, e5, e6, e7, e8, e9⟩ :=
          fixDeploymentReplicas_inv d sa now (d2, sa2) hfix
        simp only [Option.some.injEq] at h
        subst h
        simp only [Option.some.injEq] at hp
        subst hp
        refine ⟨e1, e2, e3, e4, ?_, e7, e8, e9⟩
        rcases e6 with h | h
        · exact Or.inl h
        · exact Or.inr (Or.inl h)
    · rw [if_neg hdr] at h
      repeat' split at h
      all_goals first
        | exact Option.noConfusion h
        | (simp only [Option.some.injEq] at h; subst h;
           first
             | exact Option.noConfusion hp
             | (simp only [Option.some.injEq] at hp; subst hp;
                refine ⟨rfl, rfl, rfl, rfl, ?_, rfl, rfl, rfl⟩;
                first
                  | (split <;> simp)
                  | simp))

/-- Every persisting pass satisfies the persist invariant. -/
theorem reconcile_persist_inv (d : Deployment) (now : Int) (sa : ScaleAnnot) (o : Outcome)
    (sa' : ScaleAnnot) (hdec : ReadScaleAnnot d.annotations now = .ok sa)
    (h : reconcile d now = some o) (hp : o.persisted = some sa') :
    PersistInv d sa o sa' := by
  unfold reconcile at h
  split at h
  · next e heq =>
    rw [hdec] at heq
    exact Except.noConfusion heq
  · next sa2 heq =>
    rw [hdec] at heq
    injection heq with heq
    subst heq
    split at h
    · exact Option.noConfusion h
    next sr hsr =>
    by_cases h1 : sa.CurrentStepState = StepStateUpgrade
    · rw [if_pos h1] at h; exact upgradeStep_inv d sa sr now o sa' h hp
    · rw [if_neg h1] at h
      by_cases h2 : sa.CurrentStepState = StepStatePaused
      · rw [if_pos h2] at h; exact pausedStep_inv d sa sr now o sa' h hp
      · rw [if_neg h2] at h
        by_cases h3 : sa.CurrentStepState = StepStateReady
        · rw [if_pos h3] at h; exact readyStep_inv d sa sr now o sa' h hp
        · rw [if_neg h3] at h
          by_cases h4 : sa.CurrentStepState = StepStateCompleted
          · rw [if_pos h4] at h; exact completedStep_inv d sa sr now o sa' h hp
          · rw [if_neg h4] at h
            by_cases h5 : sa.CurrentStepState = StepStateTimeout
            · rw [if_pos h5] at h; exact timeoutStep_inv d sa sr now o sa' h hp
            · rw [if_neg h5] at h
              rw [Option.some.injEq] at h
              subst h
              exact absurd hp (by simp)

/- ---------------------------------------------------------------------
C7.
--------------------------------------------------------------------- -/

/-- C7: every plan the engine persists carries a CurrentStepState that is
one of exactly the five enumeration name strings StepUpgrade, StepPaused,
StepReady, Completed, Timeout (the terminal failure state being the
string "Timeout", per the spec-modelled StepStateTimeout constant), and
the codec stores that state string verbatim under the
current_step_state key of any bag it encodes into. -/
theorem C7_persisted_state_enum (d : Deployment) (now : Int) (o : Outcome) (sa' : ScaleAnnot)
    (h : reconcile d now = some o) (hp : o.persisted = some sa') :
    (sa'.CurrentStepState = StepStateUpgrade ∨ sa'.CurrentStepState = StepStatePaused ∨
      sa'.CurrentStepState = StepStateReady ∨ sa'.CurrentStepState = StepStateCompleted ∨
      sa'.CurrentStepState = StepStateTimeout) ∧
    (∀ b, lookupAnn (SetScaleAnnot b sa') "current_step_state" = some sa'.CurrentStepState) := by
  refine ⟨?_, fun b => by simp [SetScaleAnnot, lookupAnn_setAnn]⟩
  unfold reconcile at h
  split at h
  · split at h <;> (simp only [Option.some.injEq] at h; subst h; exact Option.noConfusion hp)
  · next sa heq =>
    split at h
    · exact Option.noConfusion h
    next sr hsr =>
    by_cases h1 : sa.CurrentStepState = StepStateUpgrade
    · rw [if_pos h1] at h
      have inv := upgradeStep_inv d sa sr now o sa' h hp
      unfold PersistInv at inv
      rcases inv.2.2.2.2.1 with h' | h' | h' | h' | h' | h'
      · exact Or.inr (Or.inl h')
      · exact Or.inl h'
      · exact Or.inr (Or.inr (Or.inl h'))
      · exact Or.inr (Or.inr (Or.inr (Or.inl h')))
      · exact Or.inr (Or.inr (Or.inr (Or.inr h')))
      · rw [h1] at h'; exact Or.inl h'
    · rw [if_neg h1] at h
      by_cases h2 : sa.CurrentStepState = StepStatePaused
      · rw [if_pos h2] at h
        have inv := pausedStep_inv d sa sr now o sa' h hp
        unfold PersistInv at inv
        rcases inv.2.2.2.2.1 with h' | h' | h' | h' | h' | h'
        · exact Or.inr (Or.inl h')
        · exact Or.inl h'
        · exact Or.inr (Or.inr (Or.inl h'))
        · exact Or.inr (Or.inr (Or.inr (Or.inl h')))
        · exact Or.inr (Or.inr (Or.inr (Or.inr h')))
        · rw [h2] at h'; exact Or.inr (Or.inl h')
      · rw [if_neg h2] at h
        by_cases h3 : sa.CurrentStepState = StepStateReady
        · rw [if_pos h3] at h
          have inv := readyStep_inv d sa sr now o sa' h hp
          unfold PersistInv at inv
          rcases inv.2.2.2.2.1 with h' | h' | h' | h' | h' | h'
          · exact Or.inr (Or.inl h')
          · exact Or.inl h'
          · exact Or.inr (Or.inr (Or.inl h'))
          · exact Or.inr (Or.inr (Or.inr (Or.inl h')))
          · exact Or.inr (Or.inr (Or.inr (Or.inr h')))
          · rw [h3] at h'; exact Or.inr (Or.inr (Or.inl h'))
        · rw [if_neg h3] at h
          by_cases h4 : sa.CurrentStepState = StepStateCompleted
          · rw [if_pos h4] at h
            have inv := completedStep_inv d sa sr now o sa' h hp
            unfold PersistInv at inv
            rcases inv.2.2.2.2.1 with h' | h' | h' | h' | h' | h'
            · exact Or.inr (Or.inl h')
            · exact Or.inl h'
            · exact Or.inr (Or.inr (Or.inl h'))
            · exact Or.inr (Or.inr (Or.inr (Or.inl h')))
            · exact Or.inr (Or.inr (Or.inr (Or.inr h')))
            · rw [h4] at h'; exact Or.inr (Or.inr (Or.inr (Or.inl h')))
          · rw [if_neg h4] at h
            by_cases h5 : sa.CurrentStepState = StepStateTimeout
            · rw [if_pos h5] at h
              have inv := timeoutStep_inv d sa sr now o sa' h hp
              unfold PersistInv at inv
              rcases inv.2.2.2.2.1 with h' | h' | h' | h' | h' | h'
              · exact Or.inr (Or.inl h')
              · exact Or.inl h'
              · exact Or.inr (Or.inr (Or.inl h'))
              · exact Or.inr (Or.inr (Or.inr (Or.inl h')))
              · exact Or.inr (Or.inr (Or.inr (Or.inr h')))
              · rw [h5] at h'; exact Or.inr (Or.inr (Or.inr (Or.inr h')))
            · rw [if_neg h5] at h
              simp only [Option.some.injEq] at h
              subst h
              exact absurd hp (by simp)

def c7Bag : Ann :=
  [("steps", "[\x7b\"replicas\":2\x7d]"), ("current_step_index", "1"),
   ("current_step_state", "StepUpgrade"), ("last_update_time", "0"),
   ("max_wait_available_time", "10")]

def c7Dep : Deployment := ⟨some 2, false, 2, 0, 2, some c7Bag⟩

def c7TimeoutPlan : ScaleAnnot := ⟨[⟨2, false⟩], 1, "Timeout", "", 10, 1, 100⟩

def c7Out : Outcome :=
  ⟨{ c7Dep with annotations := some (SetScaleAnnot c7Dep.annotations c7TimeoutPlan) },
   0, false, some c7TimeoutPlan⟩

/-- Witness for C7: a deadline-exceeded pass (total 2 = desired, available
0, unavailable 2 > tolerance 1, past the deadline) persists a plan, its
state is among the five enumeration names — here the terminal failure
string "Timeout" — and encode stores it verbatim. -/
theorem C7_persisted_state_enum_witness :
    reconcile c7Dep 100 = some c7Out ∧ c7Out.persisted = some c7TimeoutPlan ∧
      ((c7TimeoutPlan.CurrentStepState = StepStateUpgrade ∨
        c7TimeoutPlan.CurrentStepState = StepStatePaused ∨
        c7TimeoutPlan.CurrentStepState = StepStateReady ∨
        c7TimeoutPlan.CurrentStepState = StepStateCompleted ∨
        c7TimeoutPlan.CurrentStepState = StepStateTimeout) ∧
       lookupAnn (SetScaleAnnot (some []) c7TimeoutPlan) "current_step_state" =
         some c7TimeoutPlan.CurrentStepState) ∧
      c7TimeoutPlan.CurrentStepState = "Timeout" :=
  ⟨rfl, rfl,
   ⟨(C7_persisted_state_enum c7Dep 100 c7Out c7TimeoutPlan rfl rfl).1,
    (C7_persisted_state_enum c7Dep 100 c7Out c7TimeoutPlan rfl rfl).2 (some [])⟩,
   rfl⟩

/- ---------------------------------------------------------------------
C8.
--------------------------------------------------------------------- -/

def c8Bag : Ann :=
  [("steps", "[\x7b\"replicas\":1\x7d]"), ("current_step_index", "2"),
   ("current_step_state", "StepUpgrade"), ("last_update_time", "0")]

def c8Dep : Deployment := ⟨some 1, false, 1, 1, 0, some c8Bag⟩

def c8BagEmpty : Ann :=
  [("steps", "[]"), ("current_step_index", "1"),
   ("current_step_state", "StepReady"), ("last_update_time", "0")]

def c8DepEmpty : Deployment := ⟨some 0, false, 0, 0, 0, some c8BagEmpty⟩

/-- C8 failing inputs: a plan whose current_step_index 2 exceeds its
single-step list, and a plan with an empty step list, both decode
successfully — neither decode nor any pre-dispatch check rejects them as
malformed — and the pass then faults (the Go code indexes
Steps[currentStepIndex-1] out of range, modelled as `none`). -/
theorem C8_out_of_range_fault :
    ReadScaleAnnot c8Dep.annotations 0 = .ok ⟨[⟨1, false⟩], 2, "StepUpgrade", "", 600, 1, 0⟩ ∧
      reconcile c8Dep 0 = none ∧
      ReadScaleAnnot c8DepEmpty.annotations 0 = .ok ⟨[], 1, "StepReady", "", 600, 1, 0⟩ ∧
      reconcile c8DepEmpty 0 = none :=
  ⟨rfl, rfl, rfl, rfl⟩

/- ---------------------------------------------------------------------
C9.
--------------------------------------------------------------------- -/

def c9Bag : Ann :=
  [("steps", "[\x7b\"replicas\":1\x7d]"), ("current_step_index", "1"),
   ("current_step_state", "StepUpgrade"), ("last_update_time", "0")]

def c9Dep : Deployment := ⟨none, false, 1, 1, 0, some c9Bag⟩

/-- C9 failing input: a workload carrying a perfectly decodable plan but a
nil (unset) Spec.Replicas: decode succeeds, yet the pass faults — the Go
code dereferences *deployment.Spec.Replicas unconditionally right after
decoding (the logging call of src/reconciler.go line 54 evaluates it even
before the switch), modelled as `none` — instead of treating the unset
value as a precondition failure. -/
theorem C9_nil_replicas_deref :
    ReadScaleAnnot c9Dep.annotations 0 = .ok ⟨[⟨1, false⟩], 1, "StepUpgrade", "", 600, 1, 0⟩ ∧
      c9Dep.specReplicas = none ∧
      reconcile c9Dep 0 = none :=
  ⟨rfl, rfl, rfl⟩

/- ---------------------------------------------------------------------
C10.
--------------------------------------------------------------------- -/

/-- C10: whatever plan a reconcile pass persists, its Steps sequence,
MaxWaitAvailableSecond, MaxUnavailableReplicas and Message equal those of
the decoded plan — the engine only ever rewrites CurrentStepIndex,
CurrentStepState and LastUpdateTime (besides the workload's desired
replica count and pause flag), and never touches the observed status
counts. -/
theorem C10_engine_frame (d : Deployment) (now : Int) (sa : ScaleAnnot) (o : Outcome)
    (sa' : ScaleAnnot) (hdec : ReadScaleAnnot d.annotations now = .ok sa)
    (h : reconcile d now = some o) (hp : o.persisted = some sa') :
    sa'.Steps = sa.Steps ∧ sa'.MaxWaitAvailableSecond = sa.MaxWaitAvailableSecond ∧
      sa'.MaxUnavailableReplicas = sa.MaxUnavailableReplicas ∧ sa'.Message = sa.Message ∧
      o.dep.statusReplicas = d.statusReplicas ∧ o.dep.availableReplicas = d.availableReplicas ∧
      o.dep.unavailableReplicas = d.unavailableReplicas := by
  have inv := reconcile_persist_inv d now sa o sa' hdec h hp
  unfold PersistInv at inv
  exact ⟨inv.1, inv.2.2.1, inv.2.2.2.1, inv.2.1, inv.2.2.2.2.2.1, inv.2.2.2.2.2.2.1,
    inv.2.2.2.2.2.2.2⟩

def c10Bag : Ann :=
  [("steps", "[\x7b\"replicas\":4\x7d]"), ("current_step_index", "1"),
   ("current_step_state", "StepUpgrade"), ("last_update_time", "0")]

def c10Plan : ScaleAnnot := ⟨[⟨4, false⟩], 1, "StepUpgrade", "", 600, 1, 0⟩

def c10Dep : Deployment := ⟨some 7, false, 4, 4, 0, some c10Bag⟩

def c10FixedPlan : ScaleAnnot := ⟨[⟨4, false⟩], 1, "StepUpgrade", "", 600, 1, 50⟩

def c10Out : Outcome :=
  ⟨{ c10Dep with specReplicas := some 4, annotations := some (SetScaleAnnot c10Dep.annotations c10FixedPlan) },
   5, false, some c10FixedPlan⟩

/-- Witness for C10: a drift-repair pass (desired 7 against target 4)
persists a plan whose Steps, deadline budget, tolerance and message all
equal the decoded plan's, with the status counts untouched. -/
theorem C10_engine_frame_witness :
    ReadScaleAnnot c10Dep.annotations 50 = .ok c10Plan ∧
      reconcile c10Dep 50 = some c10Out ∧ c10Out.persisted = some c10FixedPlan ∧
      (c10FixedPlan.Steps = c10Plan.Steps ∧
        c10FixedPlan.MaxWaitAvailableSecond = c10Plan.MaxWaitAvailableSecond ∧
        c10FixedPlan.MaxUnavailableReplicas = c10Plan.MaxUnavailableReplicas ∧
        c10FixedPlan.Message = c10Plan.Message ∧
        c10Out.dep.statusReplicas = c10Dep.statusReplicas ∧
        c10Out.dep.availableReplicas = c10Dep.availableReplicas ∧
        c10Out.dep.unavailableReplicas = c10Dep.unavailableReplicas) :=
  ⟨rfl, rfl, rfl, C10_engine_frame c10Dep 50 c10Plan c10Out c10FixedPlan rfl rfl rfl⟩

end AnnotationScale
